import Mathlib

/-!
Verification development for the Arma3Server_v2 launcher's content
reconciliation engine (`arma_launcher/content_manager.py`,
`arma_launcher/steamcmd.py`, `arma_launcher/fs_layout.py`,
`arma_launcher/models.py`).

Paths are modelled as lists of components; the filesystem is modelled as a
record of query functions (existence, directory-ness, symlink-ness, children
listing, path resolution, marker contents and two recursive-search facts used
by the minimal-content validator) together with explicit update operations.
Stateful code is embedded in a state-passing monad `CM` over this filesystem
record, returning `Except PyErr` to model Python exceptions.

Python attribute lookup on the dataclass / pydantic model types is embedded by
per-type `attr`-style functions enumerating exactly the fields declared in the
source; looking up a name the source type does not declare yields an
`AttributeError`, exactly as in Python.
-/

/-- A filesystem path, as a list of components (`pathlib.Path`). -/
abbrev FPath := List String

/-- `p / s` on `pathlib` paths: append one component. -/
def pjoin (p : FPath) (s : String) : FPath := p ++ [s]

/-- Render a path as a string (`str(path)`), used in plan-action path maps. -/
def pstr (p : FPath) : String := String.intercalate "/" p

/-- The parsed contents of a `.modmeta.json` install marker, as written by
`ContentManager._write_modmeta` (fields `steamid`, `name`, `timestamp`,
`synced_at`, `last_checked`). -/
structure Modmeta where
  steamid : String
  name : String
  timestamp : Int
  synced_at : String
  last_checked : String
deriving DecidableEq, Repr

/-- Abstract filesystem state. Query fields model the read operations the
engine performs (`Path.exists`, `Path.is_dir`, `Path.is_file`,
`Path.is_symlink`, `Path.iterdir`, `Path.resolve`, reading a marker file, and
the two recursive searches done by `_verify_mod_minimum`: "any `*.pbo` under
the tree" and "any case-insensitive `meta.cpp` under the tree"). Mutations are
modelled by the explicit update operations below, at per-path granularity. -/
structure FS where
  exist : FPath → Bool
  isDir : FPath → Bool
  isFile : FPath → Bool
  isSymlink : FPath → Bool
  childrenOf : FPath → List String
  resolvePath : FPath → FPath
  readMeta : FPath → Option Modmeta
  anyPboUnder : FPath → Bool
  metaCppUnder : FPath → Bool

/-- Write a marker file at `p` (`Path.write_text` of the serialized record):
afterwards the path exists, is a file, and reads back as `m`. -/
def FS.writeMeta (fs : FS) (p : FPath) (m : Modmeta) : FS :=
  { fs with
    exist := fun q => if q = p then true else fs.exist q
    isFile := fun q => if q = p then true else fs.isFile q
    readMeta := fun q => if q = p then some m else fs.readMeta q }

/-- `Path.mkdir(parents=True, exist_ok=True)`, at per-path granularity. -/
def FS.mkdirp (fs : FS) (p : FPath) : FS :=
  { fs with
    exist := fun q => if q = p then true else fs.exist q
    isDir := fun q => if q = p then true else fs.isDir q }

/-- `Path.unlink(missing_ok=True)` / `shutil.rmtree` at per-path granularity:
the path no longer exists in any form. -/
def FS.removePath (fs : FS) (p : FPath) : FS :=
  { fs with
    exist := fun q => if q = p then false else fs.exist q
    isDir := fun q => if q = p then false else fs.isDir q
    isFile := fun q => if q = p then false else fs.isFile q
    isSymlink := fun q => if q = p then false else fs.isSymlink q
    readMeta := fun q => if q = p then none else fs.readMeta q }

/-- `link.symlink_to(target)`: afterwards the link path exists and is a
symlink. -/
def FS.symlinkTo (fs : FS) (link target : FPath) : FS :=
  { fs with
    exist := fun q => if q = link then true else fs.exist q
    isSymlink := fun q => if q = link then true else fs.isSymlink q
    resolvePath := fun q => if q = link then fs.resolvePath target else fs.resolvePath q }

/-- Python exceptions raised by the embedded code. `attributeError obj name`
models `AttributeError` from looking up a missing attribute `name` on an
object of type `obj`; `nameError n` models `NameError: name n is not
defined`; `steamCmdError` models `steamcmd.SteamCmdError` (a `RuntimeError`
subclass carrying an error-classification `kind`). -/
inductive PyErr where
  | attributeError (obj attrName : String)
  | nameError (n : String)
  | runtimeError (msg : String)
  | steamCmdError (kind msg : String)
deriving DecidableEq, Repr

/-- `str(e)` as used when recording a failure reason in `ensure_workshop`. -/
def PyErr.toReason : PyErr → String
  | .attributeError obj a => "AttributeError: " ++ obj ++ " object has no attribute " ++ a
  | .nameError n => "NameError: name " ++ n ++ " is not defined"
  | .runtimeError m => m
  | .steamCmdError k m => m ++ " (kind=" ++ k ++ ")"

/-- State-passing embedding of the engine's effectful Python code: a
computation reads and updates the filesystem and may raise a `PyErr`. -/
def CM (α : Type) : Type := FS → Except PyErr α × FS

/-- Sequencing in `CM`: run the first computation; on success continue with
its value and the updated filesystem, on an exception propagate it. -/
def CM.bind {α β : Type} (x : CM α) (f : α → CM β) : CM β := fun fs =>
  match x fs with
  | (.ok a, fs') => f a fs'
  | (.error e, fs') => (.error e, fs')

/-- Returning a value in `CM` leaves the filesystem unchanged. -/
def CM.pure {α : Type} (a : α) : CM α := fun fs => (.ok a, fs)

instance monadCM : Monad CM where
  pure := CM.pure
  bind := CM.bind

/-- Raise a Python exception. -/
def CM.raise {α : Type} (e : PyErr) : CM α := fun fs => (.error e, fs)

/-- Lift a pure `Except` (e.g. an attribute lookup) into the monad. -/
def CM.liftE {α : Type} (x : Except PyErr α) : CM α := fun fs => (x, fs)

/-- Read-only query of the filesystem. -/
def CM.query {α : Type} (f : FS → α) : CM α := fun fs => (.ok (f fs), fs)

/-- Apply a filesystem mutation. -/
def CM.modifyFS (f : FS → FS) : CM Unit := fun fs => (.ok (), f fs)

/-- `path.exists()`. -/
def CM.pexists (p : FPath) : CM Bool := CM.query (fun fs => fs.exist p)

/-- The `Layout` frozen dataclass from `fs_layout.py` (lines 6-19). Its
complete field list: `dlcs`, `maps`, `mods`, `ocap`, `inst_mods`,
`inst_servermods`, `inst_userconfig`, `inst_config`, `inst_mpmissions`,
`inst_logs`, `arma_cfg_dir`, `arma_keys_dir`. Note that there is no
`servermods`, no `inst_custom_mods` and no `arma_custom_mods_dir` field,
although `content_manager.py` refers to all three. -/
structure Layout where
  dlcs : FPath
  maps : FPath
  mods : FPath
  ocap : FPath
  inst_mods : FPath
  inst_servermods : FPath
  inst_userconfig : FPath
  inst_config : FPath
  inst_mpmissions : FPath
  inst_logs : FPath
  arma_cfg_dir : FPath
  arma_keys_dir : FPath

/-- Python attribute lookup on a `Layout` value: exactly the fields declared
in `fs_layout.py` succeed; any other name raises `AttributeError` (the
dataclass defines no such attribute). -/
def Layout.attr (l : Layout) (a : String) : Except PyErr FPath :=
  if a = "dlcs" then .ok l.dlcs
  else if a = "maps" then .ok l.maps
  else if a = "mods" then .ok l.mods
  else if a = "ocap" then .ok l.ocap
  else if a = "inst_mods" then .ok l.inst_mods
  else if a = "inst_servermods" then .ok l.inst_servermods
  else if a = "inst_userconfig" then .ok l.inst_userconfig
  else if a = "inst_config" then .ok l.inst_config
  else if a = "inst_mpmissions" then .ok l.inst_mpmissions
  else if a = "inst_logs" then .ok l.inst_logs
  else if a = "arma_cfg_dir" then .ok l.arma_cfg_dir
  else if a = "arma_keys_dir" then .ok l.arma_keys_dir
  else .error (.attributeError "Layout" a)

/-- The fields of `Settings` (settings.py) that the content manager reads. -/
structure Settings where
  arma_root : FPath
  arma_common : FPath
  arma_instance : FPath
  steam_library_root : FPath
  steamcmd_sh : FPath
  skip_install : Bool
  arma_workshop_game_id : Int

/-- `WorkshopItem` (models.py lines 26-29): `id : int`,
`name : Optional[str]`, `required : bool` (default `True`). -/
structure WorkshopItem where
  id : Int
  name : Option String
  required : Bool
deriving DecidableEq, Repr

/-- `DlcSpec` (models.py lines 39-44). -/
structure DlcSpec where
  name : String
  app_id : Int
  mount_name : String
  beta_branch : Option String
  beta_password : Option String
deriving DecidableEq, Repr

/-- `SteamConfig` (models.py lines 36-37). -/
structure SteamConfig where
  force_validate : Bool
deriving DecidableEq, Repr

/-- `OcapConfig` (models.py lines 70-83). -/
structure OcapConfig where
  enabled : Bool
  link_to : String
  link_name : String
  source_subdir : String
deriving DecidableEq, Repr

/-- `WorkshopConfig` (models.py lines 31-34). Its complete field list is
`mods`, `maps`, `servermods`: there is no `clientmods` field, although
`ContentManager.ensure_workshop` iterates `cfg.active.workshop.clientmods`. -/
structure WorkshopConfig where
  mods : List WorkshopItem
  maps : List WorkshopItem
  servermods : List WorkshopItem
deriving DecidableEq, Repr

/-- Python attribute lookup of a per-category item list on a
`WorkshopConfig` value: only the three declared fields exist; in particular
looking up `clientmods` raises `AttributeError`. -/
def WorkshopConfig.attrItems (w : WorkshopConfig) (a : String) :
    Except PyErr (List WorkshopItem) :=
  if a = "mods" then .ok w.mods
  else if a = "maps" then .ok w.maps
  else if a = "servermods" then .ok w.servermods
  else .error (.attributeError "WorkshopConfig" a)

/-- `HeadlessClientsConfig` (models.py lines 63-67); not read by the engine. -/
structure HeadlessClientsConfig where
  enabled : Bool
  count : Int
deriving DecidableEq, Repr

/-- The fields of `ServerConfig` (models.py lines 46-57) read by the engine. -/
structure ServerConfig where
  missions_dir : String
deriving DecidableEq, Repr

/-- `ActiveConfig` (models.py lines 85-90). Complete field list: `steam`,
`dlcs`, `workshop`, `headless_clients`, `ocap`. There is no `custom_mods`
field, although both `ContentManager.plan` and
`ContentManager.link_instance_content` read `cfg.active.custom_mods`. -/
structure ActiveConfig where
  steam : SteamConfig
  dlcs : List DlcSpec
  workshop : WorkshopConfig
  headless_clients : HeadlessClientsConfig
  ocap : OcapConfig
deriving DecidableEq, Repr

/-- One entry of the custom-mods block as consumed by
`link_instance_content` (fields `name` and `required`). The `ActiveConfig`
model declares no `custom_mods` field at all, so this type only serves to
type the (unreachable) code that would consume the lookup's result. -/
structure CustomModEntry where
  name : String
  required : Bool
deriving DecidableEq, Repr

/-- The custom-mods block as consumed by `plan` (two lists of folder name
strings). As with `CustomModEntry`, the source model type declares no such
field, so this type only types unreachable consumer code. -/
structure CustomModsBlock where
  mods : List String
  servermods : List String
deriving DecidableEq, Repr

/-- Python attribute lookup of `custom_mods` on an `ActiveConfig` value, as
performed by `plan` (which consumes it as string lists): the pydantic model
declares no such field, so the lookup raises `AttributeError`. -/
def ActiveConfig.attrCustomMods (_c : ActiveConfig) :
    Except PyErr CustomModsBlock :=
  .error (.attributeError "ActiveConfig" "custom_mods")

/-- Python attribute lookup of `custom_mods` on an `ActiveConfig` value, as
performed by `link_instance_content` (which consumes it as entry objects):
the pydantic model declares no such field, so the lookup raises
`AttributeError`. -/
def ActiveConfig.attrCustomModEntries (_c : ActiveConfig) :
    Except PyErr (List CustomModEntry × List CustomModEntry) :=
  .error (.attributeError "ActiveConfig" "custom_mods")

/-- `MergedConfig` (models.py lines 111-115), restricted to the fields the
engine reads. -/
structure MergedConfig where
  config_name : String
  server : ServerConfig
  active : ActiveConfig

/-- `InstallResult` (content_manager.py lines 21-26). -/
structure InstallResult where
  kind : String
  id_or_app : String
  path : FPath
  changed : Bool
deriving DecidableEq, Repr

/-- `PlanAction` (planner.py lines 6-13). -/
structure PlanAction where
  action : String
  target : String
  detail : String
  paths : List (String × String)
  will_change : Bool
  severity : String
deriving DecidableEq, Repr

/-- `Plan` (planner.py lines 18-22). -/
structure Plan where
  ok : Bool
  actions : List PlanAction
  notes : List String
deriving DecidableEq, Repr

/-- The module-level names bound in `content_manager.py` (its `import` block,
lines 1-19, plus module-level definitions). Neither `random` nor `time` is
among them: the module never imports those two, although
`ensure_workshop_item` calls `random.uniform` and `time.sleep`. -/
def contentManagerModuleNames : List String :=
  ["annotations", "json", "itertools", "os", "shutil", "urllib",
   "dataclass", "datetime", "timezone", "Path", "List", "Optional",
   "MergedConfig", "WorkshopItem", "DlcSpec", "Settings", "Layout",
   "SteamCMD", "SteamCmdError", "get_logger", "Plan", "PlanAction",
   "log", "InstallResult", "ContentManager"]

/-- Python global-name lookup in the `content_manager` module scope: a name
that is not bound at module level raises `NameError`. -/
def lookupContentManagerName (n : String) : Except PyErr Unit :=
  if n ∈ contentManagerModuleNames then .ok () else .error (.nameError n)

/-- Python's `x or y` for an optional string `x` (used as
`item.name or str(wid)`): `None` and the empty string are falsy. -/
def pyOrStr (x : Option String) (y : String) : String :=
  match x with
  | none => y
  | some s => if s = "" then y else s

/-- External collaborators of the content manager, modelled as oracles:
`remoteTime` is `_get_remote_time_updated_epoch` (the Steam Web API query,
`None` on any failure); `nowIso` / `nowEpoch` are `_now_iso_z` /
`_now_epoch`; `toolOutcome wid attempt` is the outcome of the `attempt`-th
`steamcmd.workshop_download` invocation for item `wid` (`none` = success,
`some kind` = `SteamCmdError` of that classification); `downloadEffect wid`
is the filesystem effect of a successful download (the external process owns
the Steam library tree). -/
structure Env where
  remoteTime : Int → Option Int
  nowIso : String
  nowEpoch : Int
  toolOutcome : Int → Nat → Option String
  downloadEffect : Int → FS → FS

/-- `ContentManager._workshop_cache_dir` (content_manager.py lines 305-306). -/
def workshop_cache_dir (st : Settings) (workshop_id : Int) : FPath :=
  st.steam_library_root ++ ["steamapps", "workshop", "content",
    toString st.arma_workshop_game_id, toString workshop_id]

/-- `ContentManager._verify_mod_minimum` (content_manager.py lines 626-670)
with the default requirement list `["addons", "meta.cpp", ".pbo"]`:
- fails when the source path does not exist;
- the `addons` requirement is satisfied when an `addons/` subfolder exists or
  any `*.pbo` file exists anywhere under the tree;
- the `meta.cpp` requirement is satisfied when `meta.cpp` exists directly or
  a case-insensitive `meta.cpp` exists anywhere under the tree;
- returns `true` iff nothing is missing. -/
def verify_mod_minimum (fs : FS) (src : FPath) : Bool :=
  if !fs.exist src then false
  else
    let missingAddons := !fs.exist (pjoin src "addons") && !fs.anyPboUnder src
    let missingMeta := !fs.exist (pjoin src "meta.cpp") && !fs.metaCppUnder src
    !(missingAddons || missingMeta)

/-- `ContentManager._is_workshop_item_up_to_date` (content_manager.py lines
457-487). Returns `(up_to_date, remote_ts)`; refreshes the marker's
`last_checked` field whenever the marker was readable. -/
def is_workshop_item_up_to_date (env : Env) (wid : Int) (dest marker : FPath)
    (name : String) : CM (Bool × Option Int) := fun fs =>
  if !fs.exist dest || !fs.exist marker then (.ok (false, none), fs)
  else
    let meta := fs.readMeta marker
    -- local_ts = int(meta.get("timestamp") or 0); a missing/unreadable
    -- marker dict contributes 0
    let localTs : Int := (meta.map (·.timestamp)).getD 0
    let checked := env.nowIso
    let remoteTs := env.remoteTime wid
    -- always update last_checked if the marker could be read
    let fs1 := match meta with
      | some m =>
          fs.writeMeta marker
            { steamid := toString wid, name := name, timestamp := localTs,
              synced_at := if m.synced_at = "" then checked else m.synced_at,
              last_checked := checked }
      | none => fs
    match remoteTs with
    | none => (.ok (false, none), fs1)
    | some rt =>
        if !verify_mod_minimum fs1 dest then (.ok (false, none), fs1)
        else (.ok (decide (localTs ≥ rt), some rt), fs1)

/-- `Path.name`: the final component of a path. -/
def pname (p : FPath) : String := p.getLastD ""

/-- The immediate child directories of `target`
(`[p for p in target.iterdir() if p.is_dir()]`). -/
def dlcChildDirs (fs : FS) (target : FPath) : List FPath :=
  ((fs.childrenOf target).map (pjoin target)).filter (fun p => fs.isDir p)

/-- The immediate child directories of `target` that contain an `addons`
folder (`[p for p in children if (p / "addons").exists()]`). -/
def dlcHits (fs : FS) (target : FPath) : List FPath :=
  (dlcChildDirs fs target).filter (fun p => fs.exist (pjoin p "addons"))

/-- `ContentManager._resolve_dlc_link_source` (content_manager.py lines
181-217), returning the picked path together with the number of warnings
emitted: (1) the install root itself if it directly contains `addons`;
(2) the child named after the mount name if it contains `addons`; (3) the
unique qualifying immediate child directory; (4) with several qualifying
children, the first of `sorted(hits, key=name)`, with one warning; (5)
otherwise the install root, with one warning. -/
def resolve_dlc_link_source (fs : FS) (target : FPath) (mount_name : String) :
    FPath × Nat :=
  if fs.exist (pjoin target "addons") then (target, 0)
  else if fs.exist (pjoin (pjoin target mount_name) "addons") then
    (pjoin target mount_name, 0)
  else
    let hits := dlcHits fs target
    if hits.length = 1 then (hits.headD target, 0)
    else if 1 < hits.length then
      ((hits.mergeSort (fun a b => decide (pname a ≤ pname b))).headD target, 1)
    else (target, 1)

/-- `ContentManager._resolve_custom_mod_dir` (content_manager.py lines
489-512). Every execution path reads `self.layout.inst_custom_mods`, a field
the `Layout` dataclass does not declare, so every call raises
`AttributeError` before any probing can succeed. -/
def resolve_custom_mod_dir (l : Layout) (name : String) : CM FPath := do
  let raw := name.trim
  if raw = "" then
    CM.liftE (l.attr "inst_custom_mods")
  else do
    let base ← CM.liftE (l.attr "inst_custom_mods")
    let p1 := pjoin base raw
    let p1ex ← CM.pexists p1
    if p1ex then CM.pure p1
    else if !raw.startsWith "@" then do
      let p2 := pjoin base ("@" ++ raw)
      let p2ex ← CM.pexists p2
      if p2ex then CM.pure p2 else CM.pure p1
    else do
      let p3 := pjoin base (raw.dropWhile (· = '@'))
      let p3ex ← CM.pexists p3
      if p3ex then CM.pure p3 else CM.pure p1

/-- The DLC section of `ContentManager.plan` (content_manager.py lines
46-57): one `install_dlc` action per DLC, `will_change` iff the marker is
absent, severity `info` iff the marker exists. -/
def plan_dlcs (l : Layout) : List DlcSpec → CM (List PlanAction)
  | [] => CM.pure []
  | d :: rest => do
      let target := pjoin l.dlcs d.mount_name
      let marker := pjoin target ".modmeta.json"
      let markerEx ← CM.pexists marker
      let markerEx2 ← CM.pexists marker
      let act : PlanAction :=
        { action := "install_dlc"
          target := d.name ++ " (" ++ toString d.app_id ++ ")"
          detail := "SteamCMD app_update into shared dlcs store"
          paths := [("dest", pstr target), ("marker", pstr marker)]
          will_change := !markerEx
          severity := if markerEx2 then "info" else "warn" }
      let restA ← plan_dlcs l rest
      CM.pure (act :: restA)

/-- The `plan_item` closure of `ContentManager.plan` (content_manager.py
lines 60-80). Building the category-to-destination-root dict evaluates
`self.layout.servermods`, which the `Layout` dataclass does not declare. -/
def plan_workshop_item (st : Settings) (l : Layout) (kind : String)
    (item : WorkshopItem) : CM PlanAction := do
  let wid := item.id
  let name := pyOrStr item.name (toString wid)
  let tMods ← CM.liftE (l.attr "mods")
  let tClient ← CM.liftE (l.attr "mods")
  let tMaps ← CM.liftE (l.attr "maps")
  let tServer ← CM.liftE (l.attr "servermods")
  let destRoot :=
    if kind = "mods" then tMods
    else if kind = "clientmods" then tClient
    else if kind = "maps" then tMaps
    else if kind = "servermods" then tServer
    else l.mods
  let dest := pjoin destRoot (toString wid)
  let marker := pjoin dest ".modmeta.json"
  let cache := workshop_cache_dir st wid
  let cacheEx ← CM.pexists cache
  let sev := if !cacheEx then (if item.required then "warn" else "info") else "info"
  let detail :=
    if !cacheEx then "SteamCMD workshop_download_item would run; cache currently missing."
    else "SteamCMD workshop_download_item would run; cache exists."
  let markerEx ← CM.pexists marker
  CM.pure
    { action := "download_workshop"
      target := kind ++ ":" ++ name ++ " (" ++ toString wid ++ ")"
      detail := detail
      paths := [("cache", pstr cache), ("dest", pstr dest), ("marker", pstr marker)]
      will_change := !markerEx
      severity := sev }

/-- One per-category `plan_item` loop of `ContentManager.plan`
(content_manager.py lines 82-87). -/
def plan_workshop_items (st : Settings) (l : Layout) (kind : String) :
    List WorkshopItem → CM (List PlanAction)
  | [] => CM.pure []
  | it :: rest => do
      let a ← plan_workshop_item st l kind it
      let restA ← plan_workshop_items st l kind rest
      CM.pure (a :: restA)

/-- One symlink-intent loop of `ContentManager.plan` (content_manager.py
lines 90-122): one `link` action per item, always `will_change = true`,
severity `info` iff the link source exists. -/
def plan_links (kind : String) (srcRoot dstRoot : FPath) (detail : String) :
    List WorkshopItem → CM (List PlanAction)
  | [] => CM.pure []
  | it :: rest => do
      let src := pjoin srcRoot (toString it.id)
      let dst := pjoin dstRoot (toString it.id)
      let srcEx ← CM.pexists src
      let act : PlanAction :=
        { action := "link"
          target := kind ++ ":" ++ toString it.id
          detail := detail
          paths := [("src", pstr src), ("dst", pstr dst)]
          will_change := true
          severity := if srcEx then "info" else "warn" }
      let restA ← plan_links kind srcRoot dstRoot detail rest
      CM.pure (act :: restA)

/-- One custom-mod loop of `ContentManager.plan` (content_manager.py lines
152-177). Each iteration calls `_resolve_custom_mod_dir`, which raises
`AttributeError` on the missing `inst_custom_mods` layout field. -/
def plan_custom_loop (st : Settings) (l : Layout) (actionName targetTag detail : String)
    (instRoot : FPath) : List String → CM (List PlanAction)
  | [] => CM.pure []
  | name :: rest => do
      let src ← resolve_custom_mod_dir l name
      let token0 := name.trim
      let token := if token0.startsWith "@" then token0.drop 1 else token0
      let srcEx ← CM.pexists src
      let act : PlanAction :=
        { action := actionName
          target := targetTag ++ token
          detail := detail
          paths := [("src", pstr src),
                    ("dst_root", pstr (pjoin st.arma_root ("@" ++ token))),
                    ("dst_inst", pstr (pjoin instRoot token))]
          will_change := true
          severity := if srcEx then "info" else "warn" }
      let restA ← plan_custom_loop st l actionName targetTag detail instRoot rest
      CM.pure (act :: restA)

/-- `ContentManager.plan` (content_manager.py lines 36-179): DLC actions,
per-category workshop download actions (`mods`, `maps`, `servermods`),
symlink intents, the OCAP block, then the custom-mod blocks (whose
`cfg.active.custom_mods` read raises `AttributeError` since `ActiveConfig`
declares no such field). -/
def plan (st : Settings) (l : Layout) (cfg : MergedConfig) : CM Plan := do
  let validate := cfg.active.steam.force_validate
  let notes : List String :=
    if validate then ["force_validate=true: SteamCMD would run validate where applicable."]
    else []
  let aDlc ← plan_dlcs l cfg.active.dlcs
  let aW1 ← plan_workshop_items st l "mods" cfg.active.workshop.mods
  let aW2 ← plan_workshop_items st l "maps" cfg.active.workshop.maps
  let aW3 ← plan_workshop_items st l "servermods" cfg.active.workshop.servermods
  let aL1 ← plan_links "mods" l.mods l.inst_mods "Symlink into instance mods"
    cfg.active.workshop.mods
  let aL2 ← plan_links "maps" l.maps l.inst_mods
    "Symlink into instance mods (maps are mods in Arma terms)" cfg.active.workshop.maps
  -- note: the source uses `self.layout.mods` (not a servermods store) as the
  -- link source root for servermods items here
  let aL3 ← plan_links "servermods" l.mods l.inst_servermods
    "Symlink into instance servermods" cfg.active.workshop.servermods
  let oc := cfg.active.ocap
  let ocPart ←
    if oc.enabled then
      let src := if oc.source_subdir = "" then l.ocap else pjoin l.ocap oc.source_subdir
      if oc.link_to ≠ "mods" ∧ oc.link_to ≠ "servermods" then
        CM.pure (false,
          [{ action := "ocap_config_error"
             target := "ocap"
             detail := "ocap.link_to must be either mods or servermods"
             paths := [("link_to", oc.link_to)]
             will_change := false
             severity := "error" : PlanAction }])
      else do
        let dstBase := if oc.link_to = "mods" then l.inst_mods else l.inst_servermods
        let dst := pjoin dstBase oc.link_name
        let srcEx ← CM.pexists src
        CM.pure (true,
          [{ action := "link_ocap"
             target := "ocap:" ++ oc.link_to
             detail := "Symlink custom-built OCAP mod from shared ocap store into instance"
             paths := [("src", pstr src), ("dst", pstr dst)]
             will_change := true
             severity := if srcEx then "info" else "warn" : PlanAction }])
    else CM.pure (true, [])
  let cm ← CM.liftE cfg.active.attrCustomMods
  let aC1 ← plan_custom_loop st l "link_custom_mod" "custom-mod:"
    "Symlink custom mod folder into game root and instance mods" l.inst_mods cm.mods
  let aC2 ← plan_custom_loop st l "link_custom_servermod" "custom-servermod:"
    "Symlink custom servermod folder into game root and instance servermods"
    l.inst_servermods cm.servermods
  CM.pure
    { ok := ocPart.1
      actions := aDlc ++ aW1 ++ aW2 ++ aW3 ++ aL1 ++ aL2 ++ aL3 ++ ocPart.2 ++ aC1 ++ aC2
      notes := notes }

/-- `Path.mkdir` wrapped: no-op modelled reads aside. -/
def CM.mkdirp (p : FPath) : CM Unit := CM.modifyFS (fun fs => fs.mkdirp p)

/-- `ContentManager._sync_from_cache` (content_manager.py lines 308-316) at
the per-path granularity of the model: stage into a temp dir, remove the old
destination (including its marker), atomically rename into place; afterwards
the destination exists as a directory. The function returns `True`. -/
def FS.syncFromCache (fs : FS) (_cache dest : FPath) : FS :=
  ((fs.removePath (pjoin dest ".modmeta.json")).removePath dest).mkdirp dest

/-- `ContentManager._normalize_mod_case` (content_manager.py lines 363-396):
lower-cases directory names and selected-extension file names bottom-up,
skipping renames that would collide. The renamed case-variant paths are below
the granularity at which the engine re-queries the tree, so the modelled
filesystem record is unchanged. -/
def FS.normalizeCaseAt (fs : FS) (_p : FPath) : FS := fs

/-- `ContentManager._copy_keys_from_mod` (content_manager.py lines 318-355):
deletes previously installed `<steamid>_*.bikey` keys and copies the item's
key files into the game key directory. The key directory is not queried by
any embedded code path, so the modelled filesystem record is unchanged. -/
def FS.copyKeysFrom (fs : FS) (_moddir : FPath) (_steamid : String) : FS := fs

/-- `try ... except` in `CM`: run `x`; on an exception, run the handler on
the state at the raise point. -/
def CM.catchE {α : Type} (x : CM α) (h : PyErr → CM α) : CM α := fun fs =>
  match x fs with
  | (.error e, fs') => h e fs'
  | r => r

/-- `x or y` on optional epoch values (`_get_remote_time_updated_epoch(wid)
or self._now_epoch()`): `None` and `0` are falsy. -/
def pyOrEpoch (x : Option Int) (y : Int) : Int :=
  match x with
  | none => y
  | some r => if r = 0 then y else r

/-- The inner download-retry loop of `ContentManager.ensure_workshop_item`
(content_manager.py lines 575-597). `attempt` is the attempt counter after
the loop-top increment (the first invocation runs with `attempt = 1`,
`max_attempts = 8`). On a `SteamCmdError` of kind `RATE_LIMIT` or `TIMEOUT`
with attempts remaining, the code computes
`delay = min(600, 5 * 2^(attempt-1))` and then evaluates
`random.uniform(0.0, min(5.0, delay * 0.1))`; the name `random` is looked up
in the module scope of `content_manager.py`, which never imports it, so the
lookup raises `NameError` (as would the subsequent `time.sleep`). -/
def workshop_download_retry (env : Env) (wid : Int) (_validate : Bool)
    (attempt : Nat) : CM Unit := fun fs =>
  match env.toolOutcome wid attempt with
  | none => (.ok (), env.downloadEffect wid fs)
  | some k =>
      if _h : (k ≠ "RATE_LIMIT" ∧ k ≠ "TIMEOUT") ∨ 8 ≤ attempt then
        (.error (.steamCmdError k "SteamCMD error"), fs)
      else
        match lookupContentManagerName "random" with
        | .error e => (.error e, fs)
        | .ok _ =>
            match lookupContentManagerName "time" with
            | .error e => (.error e, fs)
            | .ok _ => workshop_download_retry env wid _validate (attempt + 1) fs
termination_by 8 - attempt
decreasing_by
  simp only [not_or, not_and, not_le, Decidable.not_not] at _h
  omega

/-- `ContentManager.ensure_workshop_item` (content_manager.py lines 549-624).
The category-to-destination-root dict display on line 553 evaluates
`self.layout.mods`, `self.layout.mods`, `self.layout.maps` and
`self.layout.servermods` left to right before anything else is done; the
last of these is not a `Layout` field. -/
def ensure_workshop_item (env : Env) (st : Settings) (l : Layout)
    (kind : String) (item : WorkshopItem) (validate dryRun : Bool) :
    CM (Option InstallResult) := do
  let wid := item.id
  let name := pyOrStr item.name (toString wid)
  let tMods ← CM.liftE (l.attr "mods")
  let tClient ← CM.liftE (l.attr "mods")
  let tMaps ← CM.liftE (l.attr "maps")
  let tServer ← CM.liftE (l.attr "servermods")
  let destRoot :=
    if kind = "mods" then tMods
    else if kind = "clientmods" then tClient
    else if kind = "maps" then tMaps
    else if kind = "servermods" then tServer
    else l.mods
  let dest := pjoin destRoot (toString wid)
  let marker := pjoin dest ".modmeta.json"
  let before ← CM.pexists marker
  if dryRun then
    CM.pure (some { kind := kind, id_or_app := toString wid, path := dest, changed := !before })
  else if st.skip_install then
    CM.pure (some { kind := kind, id_or_app := toString wid, path := dest, changed := !before })
  else do
    let utd ← is_workshop_item_up_to_date env wid dest marker name
    if utd.1 then
      CM.pure (some { kind := kind, id_or_app := toString wid, path := dest, changed := false })
    else do
      let cont ← CM.catchE
        (do workshop_download_retry env wid validate 1; CM.pure (some ()))
        (fun e =>
          match e with
          | .steamCmdError k _ =>
              if k = "NOT_FOUND" || k = "ACCESS_DENIED" then
                if item.required then
                  CM.raise (.runtimeError ("Workshop item unavailable: " ++ name ++
                    " (" ++ toString wid ++ ") kind=" ++ kind ++ " reason=" ++ k))
                else CM.pure none
              else CM.raise e
          | _ => CM.raise e)
      match cont with
      | none => CM.pure none
      | some _ => do
          let cache := workshop_cache_dir st wid
          let cacheEx ← CM.pexists cache
          if !cacheEx then
            if item.required then
              CM.raise (.runtimeError ("Workshop download produced no cache directory: " ++
                pstr cache ++ " (item=" ++ name ++ " id=" ++ toString wid ++ " kind=" ++ kind ++ ")"))
            else CM.pure none
          else do
            CM.modifyFS (fun fs => fs.syncFromCache cache dest)
            let changed := true
            CM.modifyFS (fun fs => fs.normalizeCaseAt dest)
            let rts : Int :=
              match utd.2 with
              | some r => r
              | none => pyOrEpoch (env.remoteTime wid) env.nowEpoch
            CM.modifyFS (fun fs => fs.writeMeta marker
              { steamid := toString wid, name := name, timestamp := rts,
                synced_at := env.nowIso, last_checked := env.nowIso })
            CM.modifyFS (fun fs => fs.copyKeysFrom dest (toString wid))
            CM.pure (some { kind := kind, id_or_app := toString wid, path := dest,
                            changed := changed || !before })

/-- One per-category loop of `ContentManager.ensure_workshop`
(content_manager.py lines 677-738): each item is processed inside
`try/except Exception`; a successful `Some` result is appended to the
results, an exception is recorded as a `(kind, name, id, reason)` failure
when the item is required and merely logged when it is optional, and the
loop continues either way. -/
def ensure_category (env : Env) (st : Settings) (l : Layout) (kind : String)
    (validate dryRun : Bool) :
    List WorkshopItem → CM (List InstallResult × List (String × String × Int × String))
  | [] => CM.pure ([], [])
  | item :: rest =>
      CM.bind
        (CM.catchE
          (CM.bind (ensure_workshop_item env st l kind item validate dryRun)
            (fun r => CM.pure (Sum.inl r)))
          (fun e => CM.pure (Sum.inr e)))
        (fun outcome =>
          CM.bind (ensure_category env st l kind validate dryRun rest)
            (fun restRes =>
              match outcome with
              | .inl (some ir) => CM.pure (ir :: restRes.1, restRes.2)
              | .inl none => CM.pure restRes
              | .inr e =>
                  let wid := item.id
                  let name := pyOrStr item.name (toString wid)
                  if item.required then
                    CM.pure (restRes.1, (kind, name, wid, e.toReason) :: restRes.2)
                  else CM.pure restRes))

/-- Render the aggregated required-failure error of
`ContentManager.ensure_workshop` (content_manager.py lines 740-745). -/
def aggregatedFailureMsg (failures : List (String × String × Int × String)) : String :=
  "Required workshop items failed:\n" ++ String.intercalate "\n"
    (failures.map (fun f =>
      "- " ++ f.1 ++ ": " ++ f.2.1 ++ " (" ++ toString f.2.2.1 ++ ") :: " ++ f.2.2.2))

/-- `ContentManager.ensure_workshop` (content_manager.py lines 672-746):
process the `mods` category, then iterate `cfg.active.workshop.clientmods`
-- an attribute the `WorkshopConfig` model does not declare, so this read
raises `AttributeError` outside every per-item `try` -- then `maps`, then
`servermods`; finally raise one aggregated `RuntimeError` if any required
failures were collected, else return the results. -/
def ensure_workshop (env : Env) (st : Settings) (l : Layout)
    (cfg : MergedConfig) (dryRun : Bool) : CM (List InstallResult) := do
  let validate := cfg.active.steam.force_validate
  let r1 ← ensure_category env st l "mods" validate dryRun cfg.active.workshop.mods
  let clientItems ← CM.liftE (cfg.active.workshop.attrItems "clientmods")
  let r2 ← ensure_category env st l "clientmods" validate dryRun clientItems
  let r3 ← ensure_category env st l "maps" validate dryRun cfg.active.workshop.maps
  let r4 ← ensure_category env st l "servermods" validate dryRun cfg.active.workshop.servermods
  let failures := r1.2 ++ r2.2 ++ r3.2 ++ r4.2
  if failures.isEmpty then CM.pure (r1.1 ++ r2.1 ++ r3.1 ++ r4.1)
  else CM.raise (.runtimeError (aggregatedFailureMsg failures))

/-- `ContentManager._recreate_link` (content_manager.py lines 749-757): in a
dry run, do nothing; otherwise remove whatever currently occupies the link
path (recursively for a real directory, `unlink` otherwise -- both collapse
to `removePath` at the model's granularity) and create a fresh symlink. -/
def recreate_link (link target : FPath) (dryRun : Bool) : CM Unit := fun fs =>
  if dryRun then (.ok (), fs)
  else
    let fs1 := if fs.isSymlink link || fs.exist link then fs.removePath link else fs
    (.ok (), fs1.symlinkTo link target)

/-- The child-clearing loop of `ContentManager.link_instance_content`
(content_manager.py lines 779-783): unlink symlinks and files, remove real
directories recursively. -/
def clear_children (d : FPath) : CM Unit := fun fs =>
  (.ok (), (fs.childrenOf d).foldl
    (fun acc nm =>
      let child := pjoin d nm
      if acc.isSymlink child || acc.isFile child then acc.removePath child
      else if acc.isDir child then acc.removePath child
      else acc) fs)

/-- The `link_into_game_root` closure of `link_instance_content`
(content_manager.py lines 785-792). -/
def link_into_game_root (st : Settings) (dryRun : Bool) (linkName : String)
    (target : FPath) : CM Unit := do
  if !dryRun then CM.mkdirp st.arma_root else CM.pure ()
  recreate_link (pjoin st.arma_root linkName) target dryRun

/-- One of the three workshop symlink loops of `link_instance_content`
(content_manager.py lines 797-813), parameterized by how the per-item link
source is computed (the servermods loop reads `self.layout.servermods`,
a field `Layout` does not declare, on each iteration). -/
def link_items_loop (st : Settings) (dryRun : Bool)
    (srcOf : WorkshopItem → CM FPath) (dstRoot : FPath) :
    List WorkshopItem → CM Unit
  | [] => CM.pure ()
  | it :: rest => do
      let src ← srcOf it
      let srcEx ← CM.pexists src
      if srcEx then do
        recreate_link (pjoin dstRoot (toString it.id)) src dryRun
        link_into_game_root st dryRun ("@" ++ toString it.id) src
      else CM.pure ()
      link_items_loop st dryRun srcOf dstRoot rest

/-- `self._mod_token(...)`: `ContentManager` defines no method `_mod_token`,
so the attribute lookup at content_manager.py lines 831/839 would raise
`AttributeError` (this code is already unreachable behind the failing
`cfg.active.custom_mods` read). -/
def contentManagerModToken (_s : String) : Except PyErr String :=
  .error (.attributeError "ContentManager" "_mod_token")

/-- One custom-mod entries loop of `link_instance_content`
(content_manager.py lines 826-841). -/
def link_custom_entries_loop (st : Settings) (l : Layout) (dryRun : Bool)
    (dstRoot : FPath) : List CustomModEntry → CM Unit
  | [] => CM.pure ()
  | item :: rest => do
      let base ← CM.liftE (l.attr "inst_custom_mods")
      let src := pjoin base item.name
      let srcEx ← CM.pexists src
      if srcEx then do
        recreate_link (pjoin dstRoot item.name) src dryRun
        let tok ← CM.liftE (contentManagerModToken item.name)
        link_into_game_root st dryRun tok src
      else CM.pure ()
      link_custom_entries_loop st l dryRun dstRoot rest

/-- The body of `ContentManager.link_instance_content` after its layout
pre-check (content_manager.py lines 776-871): clear and repopulate the
instance category folders, project workshop items, OCAP and custom mods into
the instance tree and the game root, then link missions and generated
configuration files. -/
def link_instance_content_body (st : Settings) (l : Layout)
    (cfg : MergedConfig) (dryRun : Bool) : CM Unit := do
  if !dryRun then do
    CM.mkdirp l.inst_mods
    clear_children l.inst_mods
    CM.mkdirp l.inst_servermods
    clear_children l.inst_servermods
  else CM.pure ()
  link_items_loop st dryRun (fun it => CM.pure (pjoin l.mods (toString it.id)))
    l.inst_mods cfg.active.workshop.mods
  link_items_loop st dryRun (fun it => CM.pure (pjoin l.maps (toString it.id)))
    l.inst_mods cfg.active.workshop.maps
  link_items_loop st dryRun
    (fun it => do
      let r ← CM.liftE (l.attr "servermods")
      CM.pure (pjoin r (toString it.id)))
    l.inst_servermods cfg.active.workshop.servermods
  let oc := cfg.active.ocap
  if oc.enabled then do
    let src := if oc.source_subdir = "" then l.ocap else pjoin l.ocap oc.source_subdir
    let dstBase := if oc.link_to = "mods" then l.inst_mods else l.inst_servermods
    recreate_link (pjoin dstBase oc.link_name) src dryRun
    let ocLink := if oc.link_name.startsWith "@" then oc.link_name else "@" ++ oc.link_name
    link_into_game_root st dryRun ocLink src
  else CM.pure ()
  let cmPair ← CM.liftE cfg.active.attrCustomModEntries
  link_custom_entries_loop st l dryRun l.inst_mods cmPair.1
  link_custom_entries_loop st l dryRun l.inst_servermods cmPair.2
  if !dryRun then CM.mkdirp l.inst_mpmissions else CM.pure ()
  recreate_link (pjoin st.arma_root cfg.server.missions_dir) l.inst_mpmissions dryRun
  if !dryRun then do
    CM.mkdirp l.inst_config
    CM.mkdirp l.arma_cfg_dir
  else CM.pure ()
  recreate_link (pjoin l.arma_cfg_dir "generated_a3server.cfg")
    (pjoin l.inst_config "generated_a3server.cfg") dryRun
  recreate_link (pjoin l.arma_cfg_dir "generated_hc_a3client.cfg")
    (pjoin l.inst_config "generated_hc_a3client.cfg") dryRun

/-- `ContentManager.link_instance_content` (content_manager.py lines
759-871): after an informational log line, compare
`self.layout.inst_mods.resolve()` with
`self.layout.inst_mpmissions.resolve()`; on collision raise `RuntimeError`
before any filesystem mutation, otherwise run the projection body. -/
def link_instance_content (st : Settings) (l : Layout) (cfg : MergedConfig)
    (dryRun : Bool) : CM Unit := fun fs =>
  if fs.resolvePath l.inst_mods = fs.resolvePath l.inst_mpmissions then
    (.error (.runtimeError
      ("Layout invalid: inst_mods and inst_mpmissions resolve to the same path: " ++
       pstr l.inst_mods ++ " == " ++ pstr l.inst_mpmissions ++
       ". This would link workshop mods into mpmissions.")), fs)
  else link_instance_content_body st l cfg dryRun fs

/-- `SteamCMD._mask_steamcmd` (steamcmd.py lines 177-201) at token level
(the logged line is the `shlex.quote`-join of the returned tokens): walk the
argument vector; at a `+login` token append the token itself, then -- when
present -- the user token **unchanged** (the `**user**` masking line is
commented out in the source), then the literal `***pw***` in place of the
password token, and skip three positions; every other token is kept as is. -/
def mask_steamcmd : List String → List String
  | [] => []
  | tok :: rest =>
    if tok = "+login" then
      match rest with
      | [] => [tok]
      | [user] => [tok, user]
      | user :: _pw :: rest2 => tok :: user :: "***pw***" :: mask_steamcmd rest2
    else tok :: mask_steamcmd rest

/-- The argument vector built by `SteamCMD.workshop_download` (steamcmd.py
lines 166-175) for credentials `(user, pw)`. -/
def workshop_download_args (user pw : String) (gameId workshopId : Int)
    (validate : Bool) : List String :=
  ["+login", user, pw, "+workshop_download_item", toString gameId, toString workshopId]
    ++ (if validate then ["validate"] else []) ++ ["+quit"]

/-- The oracles of `SteamCMD._run_with_backoff`: `outcome n` is the result of
the `n`-th (1-based) `self._run(args)` invocation (`none` = exit 0,
`some kind` = a `SteamCmdError` of that classification), and `uniform` models
`random.uniform` (imported by steamcmd.py). -/
structure ToolEnv where
  outcome : Nat → Option String
  uniform : ℚ → ℚ → ℚ

/-- Observable behavior of one `_run_with_backoff` execution: the final
attempt number (= how many times `_run` was invoked), and the list of sleep
durations performed between attempts, in order. -/
inductive BackoffResult where
  | ok (runs : Nat) (sleeps : List ℚ)
  | err (kind : String) (runs : Nat) (sleeps : List ℚ)
deriving DecidableEq, Repr

/-- `BackoffResult` accessors. -/
def BackoffResult.runs : BackoffResult → Nat
  | .ok r _ => r
  | .err _ r _ => r

def BackoffResult.sleeps : BackoffResult → List ℚ
  | .ok _ s => s
  | .err _ _ s => s

/-- The `while True` loop of `SteamCMD._run_with_backoff` (steamcmd.py lines
124-146), entered with the attempt counter already incremented (the first
iteration runs with `attempt = 1`): on success return; on a `SteamCmdError`
whose kind is not `RATE_LIMIT`, or with `attempt >= max_attempts`, re-raise;
otherwise sleep `min(600, 5 * 2^(attempt-1)) + random.uniform(0, min(10,
delay * 0.1))` and loop. -/
def run_with_backoff_from (env : ToolEnv) (maxAttempts attempt : Nat) :
    BackoffResult :=
  match env.outcome attempt with
  | none => .ok attempt []
  | some k =>
      if _h : k ≠ "RATE_LIMIT" ∨ maxAttempts ≤ attempt then .err k attempt []
      else
        let delay : ℚ := min 600 (5 * 2 ^ (attempt - 1))
        let jitter := env.uniform 0 (min 10 (delay * (1 / 10)))
        match run_with_backoff_from env maxAttempts (attempt + 1) with
        | .ok r ss => .ok r ((delay + jitter) :: ss)
        | .err k2 r ss => .err k2 r ((delay + jitter) :: ss)
termination_by maxAttempts - attempt
decreasing_by
  simp only [not_or, not_le, Decidable.not_not] at _h
  omega

/-- `SteamCMD._run_with_backoff` (steamcmd.py lines 124-146); both callers
pass `max_attempts = 8`. -/
def run_with_backoff (env : ToolEnv) (maxAttempts : Nat) : BackoffResult :=
  run_with_backoff_from env maxAttempts 1

/-- The invariant of the backoff loop entered at attempt `a`: the final
attempt number is between `a` and `max a maxA`; one sleep was performed per
retried attempt; only `RATE_LIMIT` outcomes are retried; the `i`-th recorded
sleep equals `min(600, 5 * 2^(a+i-1))` plus a jitter of at most one tenth of
that delay; and a non-`RATE_LIMIT` error on the entry attempt is re-raised
immediately with no sleep. -/
def BackoffSpec (env : ToolEnv) (maxA a : Nat) : Prop :=
  (a ≤ (run_with_backoff_from env maxA a).runs ∧
     (run_with_backoff_from env maxA a).runs ≤ max a maxA) ∧
  (run_with_backoff_from env maxA a).sleeps.length
      = (run_with_backoff_from env maxA a).runs - a ∧
  (∀ i, a ≤ i → i < (run_with_backoff_from env maxA a).runs →
     env.outcome i = some "RATE_LIMIT") ∧
  (∀ i (h : i < (run_with_backoff_from env maxA a).sleeps.length),
     ∃ j : ℚ, 0 ≤ j ∧ 10 * j ≤ min 600 (5 * 2 ^ (a + i - 1)) ∧
       (run_with_backoff_from env maxA a).sleeps.get ⟨i, h⟩
         = min 600 (5 * 2 ^ (a + i - 1)) + j) ∧
  (∀ k, env.outcome a = some k → k ≠ "RATE_LIMIT" →
     run_with_backoff_from env maxA a = .err k a [])

/-! ## Concrete fixtures used by witnesses and concrete evaluations -/

/-- An empty filesystem: nothing exists, directories are childless, paths
resolve to themselves, no markers. -/
def fsEmpty : FS :=
  { exist := fun _ => false
    isDir := fun _ => false
    isFile := fun _ => false
    isSymlink := fun _ => false
    childrenOf := fun _ => []
    resolvePath := fun p => p
    readMeta := fun _ => none
    anyPboUnder := fun _ => false
    metaCppUnder := fun _ => false }

/-- An environment whose remote oracle is unreachable and whose tool always
reports a rate limit. -/
def envTrivial : Env :=
  { remoteTime := fun _ => none
    nowIso := "2025-01-01T00:00:00Z"
    nowEpoch := 1735689600
    toolOutcome := fun _ _ => some "RATE_LIMIT"
    downloadEffect := fun _ fs => fs }

/-- The layout produced by `build_layout` (fs_layout.py lines 21-37) for the
default settings roots. -/
def layout0 : Layout :=
  { dlcs := ["common", "dlcs"]
    maps := ["common", "maps"]
    mods := ["common", "mods"]
    ocap := ["common", "ocap"]
    inst_mods := ["inst", "mods"]
    inst_servermods := ["inst", "servermods"]
    inst_userconfig := ["inst", "userconfig"]
    inst_config := ["inst", "config"]
    inst_mpmissions := ["inst", "mpmissions"]
    inst_logs := ["inst", "logs"]
    arma_cfg_dir := ["arma3", "config"]
    arma_keys_dir := ["arma3", "keys"] }

/-- Concrete settings with default-like values. -/
def settings0 : Settings :=
  { arma_root := ["arma3"]
    arma_common := ["common"]
    arma_instance := ["inst"]
    steam_library_root := ["root", "Steam"]
    steamcmd_sh := ["steamcmd", "steamcmd.sh"]
    skip_install := false
    arma_workshop_game_id := 107410 }

/-- A configuration with one required workshop mod and one required map. -/
def cfgTwoItems : MergedConfig :=
  { config_name := "test"
    server := { missions_dir := "mpmissions" }
    active :=
      { steam := { force_validate := false }
        dlcs := []
        workshop :=
          { mods := [{ id := 450814997, name := some "CBA_A3", required := true }]
            maps := [{ id := 843425103, name := some "RHS", required := true }]
            servermods := [] }
        headless_clients := { enabled := false, count := 0 }
        ocap := { enabled := false, link_to := "servermods", link_name := "ocap",
                  source_subdir := "" } } }

/-- A configuration with a single required workshop mod and nothing else. -/
def cfgOneMod : MergedConfig :=
  { config_name := "test"
    server := { missions_dir := "mpmissions" }
    active :=
      { steam := { force_validate := false }
        dlcs := []
        workshop :=
          { mods := [{ id := 450814997, name := some "CBA_A3", required := true }]
            maps := []
            servermods := [] }
        headless_clients := { enabled := false, count := 0 }
        ocap := { enabled := false, link_to := "servermods", link_name := "ocap",
                  source_subdir := "" } } }

/-- A filesystem whose instance mod and mission staging directories resolve
to one shared location. -/
def fsCollide : FS :=
  { fsEmpty with
    resolvePath := fun p =>
      if p = (["inst", "mods"] : FPath) then ["shared"]
      else if p = (["inst", "mpmissions"] : FPath) then ["shared"]
      else p }

/-- A DLC install root `["dlc"]` with exactly two child directories `b` and
`a`, both containing an `addons` subfolder, and no `addons` at the root or
under the mount-name child. -/
def fsTwoHits : FS :=
  { fsEmpty with
    exist := fun p => p = (["dlc", "b", "addons"] : FPath) ∨
      p = (["dlc", "a", "addons"] : FPath) ∨ p = (["dlc", "b"] : FPath) ∨
      p = (["dlc", "a"] : FPath) ∨ p = (["dlc"] : FPath)
    isDir := fun p => p = (["dlc", "b"] : FPath) ∨ p = (["dlc", "a"] : FPath) ∨
      p = (["dlc"] : FPath)
    childrenOf := fun p => if p = (["dlc"] : FPath) then ["b", "a"] else [] }

/-- A tool environment whose first invocation fails with `NOT_FOUND` and with
zero jitter. -/
def toolEnvNotFound : ToolEnv :=
  { outcome := fun _ => some "NOT_FOUND"
    uniform := fun a _ => a }

/-! ## Frame infrastructure -/

/-- A computation preserves the filesystem: whether it returns or raises, the
state it leaves behind is the state it was given. -/
def PreservesFS {α : Type} (m : CM α) : Prop := ∀ fs, (m fs).2 = fs

theorem CM.bind_eq {α β : Type} (x : CM α) (f : α → CM β) :
    x >>= f = CM.bind x f := rfl

theorem CM.pure_eq {α : Type} (a : α) : (Pure.pure a : CM α) = CM.pure a := rfl

theorem preservesFS_pure {α : Type} (a : α) : PreservesFS (CM.pure a) :=
  fun _ => rfl

theorem preservesFS_raise {α : Type} (e : PyErr) :
    PreservesFS (CM.raise (α := α) e) := fun _ => rfl

theorem preservesFS_liftE {α : Type} (x : Except PyErr α) :
    PreservesFS (CM.liftE x) := fun _ => rfl

theorem preservesFS_query {α : Type} (f : FS → α) : PreservesFS (CM.query f) :=
  fun _ => rfl

theorem preservesFS_pexists (p : FPath) : PreservesFS (CM.pexists p) :=
  fun _ => rfl

theorem preservesFS_bind {α β : Type} {x : CM α} {f : α → CM β}
    (hx : PreservesFS x) (hf : ∀ a, PreservesFS (f a)) :
    PreservesFS (CM.bind x f) := by
  intro fs
  have h1 := hx fs
  rcases hxe : x fs with ⟨e, fs'⟩
  rw [hxe] at h1
  simp only at h1
  cases e with
  | ok a =>
      simp only [CM.bind, hxe]
      exact (hf a fs').trans h1
  | error e =>
      simp only [CM.bind, hxe]
      exact h1

theorem preservesFS_ite {α : Type} {c : Prop} [Decidable c] {x y : CM α}
    (hx : PreservesFS x) (hy : PreservesFS y) :
    PreservesFS (if c then x else y) := by
  by_cases h : c <;> simp [h, hx, hy]

theorem preservesFS_resolve_custom_mod_dir (l : Layout) (name : String) :
    PreservesFS (resolve_custom_mod_dir l name) := by
  simp only [resolve_custom_mod_dir, CM.bind_eq]
  refine preservesFS_ite (preservesFS_liftE _) ?_
  refine preservesFS_bind (preservesFS_liftE _) fun base => ?_
  refine preservesFS_bind (preservesFS_pexists _) fun p1ex => ?_
  refine preservesFS_ite (preservesFS_pure _) ?_
  refine preservesFS_ite ?_ ?_
  · refine preservesFS_bind (preservesFS_pexists _) fun p2ex => ?_
    exact preservesFS_ite (preservesFS_pure _) (preservesFS_pure _)
  · refine preservesFS_bind (preservesFS_pexists _) fun p3ex => ?_
    exact preservesFS_ite (preservesFS_pure _) (preservesFS_pure _)

theorem preservesFS_plan_dlcs (l : Layout) (ds : List DlcSpec) :
    PreservesFS (plan_dlcs l ds) := by
  induction ds with
  | nil => exact preservesFS_pure _
  | cons d rest ih =>
      simp only [plan_dlcs, CM.bind_eq]
      refine preservesFS_bind (preservesFS_pexists _) fun a => ?_
      refine preservesFS_bind (preservesFS_pexists _) fun b => ?_
      exact preservesFS_bind ih fun c => preservesFS_pure _

theorem preservesFS_plan_workshop_item (st : Settings) (l : Layout)
    (kind : String) (item : WorkshopItem) :
    PreservesFS (plan_workshop_item st l kind item) := by
  simp only [plan_workshop_item, CM.bind_eq]
  refine preservesFS_bind (preservesFS_liftE _) fun t1 => ?_
  refine preservesFS_bind (preservesFS_liftE _) fun t2 => ?_
  refine preservesFS_bind (preservesFS_liftE _) fun t3 => ?_
  refine preservesFS_bind (preservesFS_liftE _) fun t4 => ?_
  refine preservesFS_bind (preservesFS_pexists _) fun c => ?_
  exact preservesFS_bind (preservesFS_pexists _) fun m => preservesFS_pure _

theorem preservesFS_plan_workshop_items (st : Settings) (l : Layout)
    (kind : String) (items : List WorkshopItem) :
    PreservesFS (plan_workshop_items st l kind items) := by
  induction items with
  | nil => exact preservesFS_pure _
  | cons it rest ih =>
      simp only [plan_workshop_items, CM.bind_eq]
      refine preservesFS_bind (preservesFS_plan_workshop_item st l kind it) fun a => ?_
      exact preservesFS_bind ih fun b => preservesFS_pure _

theorem preservesFS_plan_links (kind : String) (srcRoot dstRoot : FPath)
    (detail : String) (items : List WorkshopItem) :
    PreservesFS (plan_links kind srcRoot dstRoot detail items) := by
  induction items with
  | nil => exact preservesFS_pure _
  | cons it rest ih =>
      simp only [plan_links, CM.bind_eq]
      refine preservesFS_bind (preservesFS_pexists _) fun a => ?_
      exact preservesFS_bind ih fun b => preservesFS_pure _

theorem preservesFS_plan_custom_loop (st : Settings) (l : Layout)
    (actionName targetTag detail : String) (instRoot : FPath)
    (names : List String) :
    PreservesFS (plan_custom_loop st l actionName targetTag detail instRoot names) := by
  induction names with
  | nil => exact preservesFS_pure _
  | cons nm rest ih =>
      simp only [plan_custom_loop, CM.bind_eq]
      refine preservesFS_bind (preservesFS_resolve_custom_mod_dir l nm) fun src => ?_
      refine preservesFS_bind (preservesFS_pexists _) fun srcEx => ?_
      exact preservesFS_bind ih fun b => preservesFS_pure _

/-- Claim C6: for every resolved configuration and every filesystem state,
`plan` performs no filesystem mutation whatsoever -- whether it returns a
`Plan` value or raises, the filesystem component of its result is exactly the
filesystem it was given, so repeated calls leave the state identical. -/
theorem plan_mutates_nothing (st : Settings) (l : Layout) (cfg : MergedConfig)
    (fs : FS) : (plan st l cfg fs).2 = fs := by
  have main : PreservesFS (plan st l cfg) := by
    simp only [plan, CM.bind_eq]
    refine preservesFS_bind (preservesFS_plan_dlcs _ _) fun aDlc => ?_
    refine preservesFS_bind (preservesFS_plan_workshop_items _ _ _ _) fun aW1 => ?_
    refine preservesFS_bind (preservesFS_plan_workshop_items _ _ _ _) fun aW2 => ?_
    refine preservesFS_bind (preservesFS_plan_workshop_items _ _ _ _) fun aW3 => ?_
    refine preservesFS_bind (preservesFS_plan_links _ _ _ _ _) fun aL1 => ?_
    refine preservesFS_bind (preservesFS_plan_links _ _ _ _ _) fun aL2 => ?_
    refine preservesFS_bind (preservesFS_plan_links _ _ _ _ _) fun aL3 => ?_
    refine preservesFS_ite ?_ ?_
    · refine preservesFS_ite ?_ ?_
      · refine preservesFS_bind (preservesFS_pure _) fun y => ?_
        refine preservesFS_bind (preservesFS_liftE _) fun cm => ?_
        refine preservesFS_bind (preservesFS_plan_custom_loop _ _ _ _ _ _ _) fun aC1 => ?_
        exact preservesFS_bind (preservesFS_plan_custom_loop _ _ _ _ _ _ _)
          fun aC2 => preservesFS_pure _
      · refine preservesFS_bind (preservesFS_pexists _) fun srcEx => ?_
        refine preservesFS_bind (preservesFS_pure _) fun y => ?_
        refine preservesFS_bind (preservesFS_liftE _) fun cm => ?_
        refine preservesFS_bind (preservesFS_plan_custom_loop _ _ _ _ _ _ _) fun aC1 => ?_
        exact preservesFS_bind (preservesFS_plan_custom_loop _ _ _ _ _ _ _)
          fun aC2 => preservesFS_pure _
    · refine preservesFS_bind (preservesFS_pure _) fun y => ?_
      refine preservesFS_bind (preservesFS_liftE _) fun cm => ?_
      refine preservesFS_bind (preservesFS_plan_custom_loop _ _ _ _ _ _ _) fun aC1 => ?_
      exact preservesFS_bind (preservesFS_plan_custom_loop _ _ _ _ _ _ _)
        fun aC2 => preservesFS_pure _
  exact main fs

/-! ## Claim theorems -/

/-- Claim C3: every call to `ensure_workshop_item` -- for any category
string, any item, any `validate` flag, and in particular any dry-run call --
evaluates `self.layout.servermods` while building its
category-to-destination-root table before doing anything else; since the
`Layout` record declares no `servermods` field, every such call raises
`AttributeError` with the filesystem untouched, before any staleness check,
download, or dry-run result is produced. -/
theorem ensure_workshop_item_always_attribute_error
    (env : Env) (st : Settings) (l : Layout) (kind : String)
    (item : WorkshopItem) (validate dryRun : Bool) (fs : FS) :
    ensure_workshop_item env st l kind item validate dryRun fs
      = (.error (.attributeError "Layout" "servermods"), fs) := rfl

/-- Claim C2: `_is_workshop_item_up_to_date` returns `up_to_date = false`
whenever the install path or the marker is absent, whenever the remote
timestamp query returns `None` (regardless of marker contents or age), and
whenever minimal-content validation of the installed tree (in the state
after the `last_checked` refresh) fails; in the remaining cases it returns
`up_to_date = true` iff the marker's local epoch is `>=` the remote
timestamp, together with that remote timestamp. -/
theorem is_workshop_item_up_to_date_spec
    (env : Env) (wid : Int) (dest marker : FPath) (name : String) (fs : FS) :
    ((fs.exist dest = false ∨ fs.exist marker = false) →
       is_workshop_item_up_to_date env wid dest marker name fs = (.ok (false, none), fs))
  ∧ (env.remoteTime wid = none →
       (is_workshop_item_up_to_date env wid dest marker name fs).1 = .ok (false, none))
  ∧ (∀ rt : Int, fs.exist dest = true → fs.exist marker = true →
       env.remoteTime wid = some rt →
       verify_mod_minimum (is_workshop_item_up_to_date env wid dest marker name fs).2 dest = false →
       (is_workshop_item_up_to_date env wid dest marker name fs).1 = .ok (false, none))
  ∧ (∀ rt : Int, fs.exist dest = true → fs.exist marker = true →
       env.remoteTime wid = some rt →
       verify_mod_minimum (is_workshop_item_up_to_date env wid dest marker name fs).2 dest = true →
       (is_workshop_item_up_to_date env wid dest marker name fs).1 =
         .ok (decide (((fs.readMeta marker).map (fun m => m.timestamp)).getD 0 ≥ rt), some rt)) := by
  refine ⟨?_, ?_, ?_, ?_⟩
  · rintro (h | h) <;> simp [is_workshop_item_up_to_date, h]
  · intro hr
    by_cases hd : fs.exist dest
    · by_cases hm : fs.exist marker
      · simp [is_workshop_item_up_to_date, hd, hm, hr]
      · simp [is_workshop_item_up_to_date, hm]
    · simp [is_workshop_item_up_to_date, hd]
  · intro rt hd hm hr hv
    simp only [is_workshop_item_up_to_date, hd, hm, hr] at hv ⊢
    simp at hv ⊢
    cases hmeta : fs.readMeta marker <;>
      simp only [hmeta] at hv ⊢ <;>
      rw [apply_ite Prod.snd, ite_self] at hv <;>
      (try simp at hv) <;>
      simp [hv]
  · intro rt hd hm hr hv
    simp only [is_workshop_item_up_to_date, hd, hm, hr] at hv ⊢
    simp at hv ⊢
    cases hmeta : fs.readMeta marker <;>
      simp only [hmeta] at hv ⊢ <;>
      rw [apply_ite Prod.snd, ite_self] at hv <;>
      (try simp at hv) <;>
      simp [hv]

/-- Witness for C2: on the empty filesystem the install path of item
450814997 is absent, so the evaluator reports not up-to-date with an unknown
remote timestamp and leaves the state unchanged. -/
theorem is_workshop_item_up_to_date_spec_witness :
    is_workshop_item_up_to_date envTrivial 450814997 ["common", "mods", "450814997"]
      ["common", "mods", "450814997", ".modmeta.json"] "CBA_A3" fsEmpty
      = (.ok (false, none), fsEmpty) :=
  (is_workshop_item_up_to_date_spec envTrivial 450814997
    ["common", "mods", "450814997"] ["common", "mods", "450814997", ".modmeta.json"]
    "CBA_A3" fsEmpty).1 (Or.inl rfl)

/-- Claim C1 (code divergence): on a configuration with one required mod and
one required map, `ensure_workshop` does **not** process every item and does
**not** raise the aggregated required-failure error; after the mods loop it
evaluates `cfg.active.workshop.clientmods`, an attribute `WorkshopConfig`
does not declare, outside every per-item `try`, so the whole pass aborts
with `AttributeError` before the maps and servermods loops and before the
aggregation step. -/
theorem ensure_workshop_aborts_on_clientmods :
    ensure_workshop envTrivial settings0 layout0 cfgTwoItems false fsEmpty
      = (.error (.attributeError "WorkshopConfig" "clientmods"), fsEmpty) := rfl

/-- Claim C4 (code divergence): with a stale required item whose first
download attempt raises a `RATE_LIMIT` tool error, the retry loop of
`ensure_workshop_item` does not sleep and retry: computing the jitter
evaluates `random.uniform`, and `content_manager.py` never imports `random`,
so the loop raises `NameError` on the first transient error instead of
backing off. -/
theorem workshop_download_retry_name_error :
    workshop_download_retry envTrivial 450814997 false 1 fsEmpty
      = (.error (.nameError "random"), fsEmpty) := by
  rw [workshop_download_retry.eq_def]
  simp [envTrivial, lookupContentManagerName, contentManagerModuleNames]

/-- Claim C5 (code divergence): on a configuration with a single workshop
mod, `plan` emits no `download_workshop` action at all: building the
category-to-destination-root table inside `plan_item` reads
`self.layout.servermods`, which the `Layout` record does not declare, so
`plan` raises `AttributeError` on the first workshop item. -/
theorem plan_raises_attribute_error :
    plan settings0 layout0 cfgOneMod fsEmpty
      = (.error (.attributeError "Layout" "servermods"), fsEmpty) := rfl

/-- Claim C10: if the instance's mod-staging directory and its
mission-staging directory resolve to the same filesystem location,
`link_instance_content` raises `RuntimeError` and the filesystem it leaves
behind is exactly the filesystem it was given -- no symlink, directory or
marker is created, cleared or deleted. -/
theorem link_instance_content_guard
    (st : Settings) (l : Layout) (cfg : MergedConfig) (dryRun : Bool) (fs : FS)
    (h : fs.resolvePath l.inst_mods = fs.resolvePath l.inst_mpmissions) :
    link_instance_content st l cfg dryRun fs
      = (.error (.runtimeError
          ("Layout invalid: inst_mods and inst_mpmissions resolve to the same path: " ++
           pstr l.inst_mods ++ " == " ++ pstr l.inst_mpmissions ++
           ". This would link workshop mods into mpmissions.")), fs) := by
  simp [link_instance_content, h]

/-- Witness for C10: with a layout whose two staging directories resolve to
one shared location, the projector raises and the state is unchanged. -/
theorem link_instance_content_guard_witness :
    link_instance_content settings0 layout0 cfgOneMod false fsCollide
      = (.error (.runtimeError
          ("Layout invalid: inst_mods and inst_mpmissions resolve to the same path: " ++
           pstr layout0.inst_mods ++ " == " ++ pstr layout0.inst_mpmissions ++
           ". This would link workshop mods into mpmissions.")), fsCollide) :=
  link_instance_content_guard settings0 layout0 cfgOneMod false fsCollide (by decide)

/-- Counterexample for C7: the masked rendering of a `+login` command keeps
the credential user token in cleartext (`**user**` masking is commented out
in the source), so a log line produced when invoking the tool does contain
the user. -/
theorem mask_steamcmd_leaks_user :
    mask_steamcmd ["steamcmd.sh", "+login", "alice", "hunter2",
        "+workshop_download_item", "107410", "450814997", "+quit"]
      = ["steamcmd.sh", "+login", "alice", "***pw***",
        "+workshop_download_item", "107410", "450814997", "+quit"]
    ∧ "alice" ∈ mask_steamcmd ["steamcmd.sh", "+login", "alice", "hunter2",
        "+workshop_download_item", "107410", "450814997", "+quit"] := by
  refine ⟨rfl, ?_⟩
  decide

/-- Claim C7 as amended: of the two credential tokens following a `+login`
argument, only the password token is masked (replaced by the literal
`***pw***`); the user token is appended to the logged command unchanged. -/
theorem mask_steamcmd_masks_password_only
    (pre : List String) (user pw : String) (rest : List String)
    (h : "+login" ∉ pre) :
    mask_steamcmd (pre ++ "+login" :: user :: pw :: rest)
      = pre ++ "+login" :: user :: "***pw***" :: mask_steamcmd rest := by
  induction pre with
  | nil => simp [mask_steamcmd]
  | cons t ts ih =>
      have ht : t ≠ "+login" := by
        intro hh
        exact h (hh ▸ List.mem_cons_self t ts)
      have h2 : "+login" ∉ ts := fun hm => h (List.mem_cons_of_mem t hm)
      rw [mask_steamcmd.eq_def]
      simp [ht, ih h2]

/-- Witness for the amended C7: a concrete workshop-download command is
masked with the password replaced and the user kept. -/
theorem mask_steamcmd_masks_password_only_witness :
    mask_steamcmd (["steamcmd.sh"] ++ "+login" :: "alice" :: "hunter2" ::
        ["+workshop_download_item", "107410", "450814997", "+quit"])
      = ["steamcmd.sh"] ++ "+login" :: "alice" :: "***pw***" ::
        mask_steamcmd ["+workshop_download_item", "107410", "450814997", "+quit"] :=
  mask_steamcmd_masks_password_only ["steamcmd.sh"] "alice" "hunter2"
    ["+workshop_download_item", "107410", "450814997", "+quit"] (by decide)

/-- Helper for C9: in the ambiguous case (root and mount-name candidates both
fail, several immediate children qualify), the resolver emits exactly one
warning and picks a qualifying child whose final name component is
lexicographically least. -/
theorem resolve_dlc_multi_hits (fs : FS) (target : FPath) (mount : String)
    (h1 : fs.exist (pjoin target "addons") = false)
    (h2 : fs.exist (pjoin (pjoin target mount) "addons") = false)
    (hlen : 1 < (dlcHits fs target).length) :
    (resolve_dlc_link_source fs target mount).2 = 1 ∧
    (resolve_dlc_link_source fs target mount).1 ∈ dlcHits fs target ∧
    ∀ p ∈ dlcHits fs target,
      pname (resolve_dlc_link_source fs target mount).1 ≤ pname p := by
  have hne : dlcHits fs target ≠ [] := by
    intro hz
    rw [hz] at hlen
    simp at hlen
  have hone : ¬ (dlcHits fs target).length = 1 := by omega
  set le : FPath → FPath → Bool := fun a b => decide (pname a ≤ pname b) with hle
  have htrans : ∀ a b c : FPath, le a b = true → le b c = true → le a c = true := by
    intro a b c hab hbc
    simp [hle] at hab hbc ⊢
    exact le_trans hab hbc
  have htotal : ∀ a b : FPath, (le a b || le b a) = true := by
    intro a b
    simp [hle]
    exact le_total _ _
  have hsorted := List.sorted_mergeSort htrans htotal (dlcHits fs target)
  have hperm := List.mergeSort_perm (dlcHits fs target) le
  have hmsne : (dlcHits fs target).mergeSort le ≠ [] := by
    intro hz
    have hl := hperm.length_eq
    rw [hz] at hl
    simp at hl
    exact hne (List.length_eq_zero.mp hl.symm)
  obtain ⟨x, xs, hx⟩ := List.exists_cons_of_ne_nil hmsne
  have hres : resolve_dlc_link_source fs target mount = (x, 1) := by
    unfold resolve_dlc_link_source
    rw [if_neg (by simp [h1]), if_neg (by simp [h2]), if_neg hone, if_pos hlen,
        ← hle, hx]
    rfl
  refine ⟨by simp [hres], ?_, ?_⟩
  · rw [hres]
    have hxin : x ∈ (dlcHits fs target).mergeSort le := by
      rw [hx]
      exact List.mem_cons_self x xs
    exact hperm.subset hxin
  · intro p hp
    rw [hres]
    have hpms : p ∈ (dlcHits fs target).mergeSort le := hperm.symm.subset hp
    rw [hx] at hpms hsorted
    rcases List.mem_cons.mp hpms with hpx | hpxs
    · subst hpx
      exact le_refl _
    · have hxp := (List.pairwise_cons.mp hsorted).1 p hpxs
      simpa [hle] using hxp

/-- Claim C9: `_resolve_dlc_link_source` resolves in this precedence order:
the install root if it directly contains `addons`; else the child named
after the mount name if it contains `addons`; else the unique qualifying
immediate child; else, among several qualifying children, a
lexicographically-least one with exactly one warning; else the install root
with one warning -- and on a root with exactly two qualifying children named
`b` and `a` it selects `a`. -/
theorem resolve_dlc_link_source_spec (fs : FS) (target : FPath) (mount : String) :
    (fs.exist (pjoin target "addons") = true →
       resolve_dlc_link_source fs target mount = (target, 0))
  ∧ (fs.exist (pjoin target "addons") = false →
     fs.exist (pjoin (pjoin target mount) "addons") = true →
       resolve_dlc_link_source fs target mount = (pjoin target mount, 0))
  ∧ (∀ h : FPath, fs.exist (pjoin target "addons") = false →
     fs.exist (pjoin (pjoin target mount) "addons") = false →
     dlcHits fs target = [h] →
       resolve_dlc_link_source fs target mount = (h, 0))
  ∧ (fs.exist (pjoin target "addons") = false →
     fs.exist (pjoin (pjoin target mount) "addons") = false →
     1 < (dlcHits fs target).length →
       (resolve_dlc_link_source fs target mount).2 = 1 ∧
       (resolve_dlc_link_source fs target mount).1 ∈ dlcHits fs target ∧
       ∀ p ∈ dlcHits fs target,
         pname (resolve_dlc_link_source fs target mount).1 ≤ pname p)
  ∧ (fs.exist (pjoin target "addons") = false →
     fs.exist (pjoin (pjoin target mount) "addons") = false →
     dlcHits fs target = [] →
       resolve_dlc_link_source fs target mount = (target, 1))
  ∧ resolve_dlc_link_source fsTwoHits ["dlc"] "contact" = (["dlc", "a"], 1) := by
  refine ⟨?_, ?_, ?_, resolve_dlc_multi_hits fs target mount, ?_, ?_⟩
  · intro h1
    simp [resolve_dlc_link_source, h1]
  · intro h1 h2
    simp [resolve_dlc_link_source, h1, h2]
  · intro h h1 h2 hh
    simp [resolve_dlc_link_source, h1, h2, hh]
  · intro h1 h2 hz
    simp [resolve_dlc_link_source, h1, h2, hz]
  · have hhits : dlcHits fsTwoHits ["dlc"] = [["dlc", "b"], ["dlc", "a"]] := by decide
    obtain ⟨hw, hmem, hmin⟩ := resolve_dlc_multi_hits fsTwoHits ["dlc"] "contact"
      (by decide) (by decide) (by rw [hhits]; decide)
    rw [hhits] at hmem hmin
    have hmina := hmin ["dlc", "a"] (by simp)
    have hone : (resolve_dlc_link_source fsTwoHits ["dlc"] "contact").1 = ["dlc", "a"] := by
      rcases List.mem_cons.mp hmem with hb | ha
      · exfalso
        rw [hb] at hmina
        have hb2 : pname (["dlc", "b"] : FPath) = "b" := rfl
        have ha2 : pname (["dlc", "a"] : FPath) = "a" := rfl
        rw [hb2, ha2] at hmina
        have hno : ¬ (("b" : String) ≤ "a") := by
          rw [String.le_iff_toList_le]
          decide
        exact hno hmina
      · simpa using ha
    calc resolve_dlc_link_source fsTwoHits ["dlc"] "contact"
        = ((resolve_dlc_link_source fsTwoHits ["dlc"] "contact").1,
           (resolve_dlc_link_source fsTwoHits ["dlc"] "contact").2) := rfl
      _ = (["dlc", "a"], 1) := by rw [hone, hw]

/-- Witness for C9: a root that directly contains `addons` is returned
as-is with no warning. -/
theorem resolve_dlc_link_source_spec_witness :
    resolve_dlc_link_source fsTwoHits ["dlc", "b"] "contact" = (["dlc", "b"], 0) :=
  (resolve_dlc_link_source_spec fsTwoHits ["dlc", "b"] "contact").1 (by decide)

/-- Helper for C8: the loop invariant of `_run_with_backoff`, proved for any
entry attempt with enough fuel to reach `max_attempts`. -/
theorem backoff_from_spec (env : ToolEnv)
    (hU : ∀ b : ℚ, 0 ≤ b → 0 ≤ env.uniform 0 b ∧ env.uniform 0 b ≤ b)
    (maxA : Nat) :
    ∀ fuel a, 1 ≤ a → maxA ≤ a + fuel → BackoffSpec env maxA a := by
  intro fuel
  induction fuel with
  | zero =>
      intro a ha hma
      unfold BackoffSpec
      rw [run_with_backoff_from.eq_def]
      cases houtcome : env.outcome a with
      | none =>
          simp only [BackoffResult.runs, BackoffResult.sleeps]
          refine ⟨⟨le_refl a, le_max_left a maxA⟩, by simp, ?_, ?_, ?_⟩
          · intro i hai hia
            omega
          · intro i h
            simp at h
          · intro k hk
            simp at hk
      | some k =>
          dsimp only
          have hcond : k ≠ "RATE_LIMIT" ∨ maxA ≤ a := Or.inr (by omega)
          rw [dif_pos hcond]
          simp only [BackoffResult.runs, BackoffResult.sleeps]
          refine ⟨⟨le_refl a, le_max_left a maxA⟩, by simp, ?_, ?_, ?_⟩
          · intro i hai hia
            omega
          · intro i h
            simp at h
          · intro k2 hk2 hne
            injection hk2 with hkk
            rw [hkk]
  | succ n ih =>
      intro a ha hma
      unfold BackoffSpec
      rw [run_with_backoff_from.eq_def]
      cases houtcome : env.outcome a with
      | none =>
          simp only [BackoffResult.runs, BackoffResult.sleeps]
          refine ⟨⟨le_refl a, le_max_left a maxA⟩, by simp, ?_, ?_, ?_⟩
          · intro i hai hia
            omega
          · intro i h
            simp at h
          · intro k hk
            simp at hk
      | some k =>
          dsimp only
          by_cases hcond : k ≠ "RATE_LIMIT" ∨ maxA ≤ a
          · rw [dif_pos hcond]
            simp only [BackoffResult.runs, BackoffResult.sleeps]
            refine ⟨⟨le_refl a, le_max_left a maxA⟩, by simp, ?_, ?_, ?_⟩
            · intro i hai hia
              omega
            · intro i h
              simp at h
            · intro k2 hk2 hne
              injection hk2 with hkk
              rw [hkk]
          · rw [dif_neg hcond]
            push_neg at hcond
            obtain ⟨hkRL, hlt⟩ := hcond
            have hIH := ih (a + 1) (by omega) (by omega)
            unfold BackoffSpec at hIH
            obtain ⟨⟨hr1, hr2⟩, hlen, hretry, hsleep, _hlast⟩ := hIH
            have hdel : (0 : ℚ) ≤ min 600 (5 * 2 ^ (a - 1)) :=
              le_min (by norm_num) (by positivity)
            have hjb : (0 : ℚ) ≤ min 10 (min 600 (5 * 2 ^ (a - 1)) * (1 / 10)) :=
              le_min (by norm_num) (by positivity)
            obtain ⟨hj0, hj1⟩ := hU _ hjb
            have hj2 : env.uniform 0 (min 10 (min 600 (5 * 2 ^ (a - 1)) * (1 / 10)))
                ≤ min 600 (5 * 2 ^ (a - 1)) * (1 / 10) :=
              le_trans hj1 (min_le_right _ _)
            cases hrec : run_with_backoff_from env maxA (a + 1) with
            | ok r ss =>
                dsimp only
                rw [hrec] at hr1 hr2 hlen hretry hsleep
                simp only [BackoffResult.runs, BackoffResult.sleeps] at hr1 hr2 hlen hretry hsleep ⊢
                have hmax1 : max (a + 1) maxA = maxA := max_eq_right (by omega)
                have hmax0 : max a maxA = maxA := max_eq_right (by omega)
                refine ⟨⟨by omega, by omega⟩, by simp; omega, ?_, ?_, ?_⟩
                · intro i hai hir
                  rcases Nat.eq_or_lt_of_le hai with heq | hgt
                  · rw [← heq, houtcome, hkRL]
                  · exact hretry i hgt hir
                · intro i hle
                  cases i with
                  | zero =>
                      refine ⟨env.uniform 0 (min 10 (min 600 (5 * 2 ^ (a - 1)) * (1 / 10))),
                        hj0, ?_, ?_⟩
                      · simp only [Nat.add_zero]
                        linarith
                      · simp only [Nat.add_zero]
                        rfl
                  | succ i2 =>
                      have hle2 : i2 < ss.length := by
                        simp at hle
                        omega
                      obtain ⟨j, hja, hjb2, hjc⟩ := hsleep i2 hle2
                      refine ⟨j, hja, ?_, ?_⟩
                      · have hexp : a + 1 + i2 - 1 = a + (i2 + 1) - 1 := by omega
                        rw [hexp] at hjb2
                        exact hjb2
                      · have hexp : a + 1 + i2 - 1 = a + (i2 + 1) - 1 := by omega
                        rw [hexp] at hjc
                        simpa using hjc
                · intro k2 hk2 hne
                  injection hk2 with hkk
                  rw [← hkk] at hne
                  exact absurd hkRL hne
            | err k2 r ss =>
                dsimp only
                rw [hrec] at hr1 hr2 hlen hretry hsleep
                simp only [BackoffResult.runs, BackoffResult.sleeps] at hr1 hr2 hlen hretry hsleep ⊢
                have hmax1 : max (a + 1) maxA = maxA := max_eq_right (by omega)
                have hmax0 : max a maxA = maxA := max_eq_right (by omega)
                refine ⟨⟨by omega, by omega⟩, by simp; omega, ?_, ?_, ?_⟩
                · intro i hai hir
                  rcases Nat.eq_or_lt_of_le hai with heq | hgt
                  · rw [← heq, houtcome, hkRL]
                  · exact hretry i hgt hir
                · intro i hle
                  cases i with
                  | zero =>
                      refine ⟨env.uniform 0 (min 10 (min 600 (5 * 2 ^ (a - 1)) * (1 / 10))),
                        hj0, ?_, ?_⟩
                      · simp only [Nat.add_zero]
                        linarith
                      · simp only [Nat.add_zero]
                        rfl
                  | succ i2 =>
                      have hle2 : i2 < ss.length := by
                        simp at hle
                        omega
                      obtain ⟨j, hja, hjb2, hjc⟩ := hsleep i2 hle2
                      refine ⟨j, hja, ?_, ?_⟩
                      · have hexp : a + 1 + i2 - 1 = a + (i2 + 1) - 1 := by omega
                        rw [hexp] at hjb2
                        exact hjb2
                      · have hexp : a + 1 + i2 - 1 = a + (i2 + 1) - 1 := by omega
                        rw [hexp] at hjc
                        simpa using hjc
                · intro k3 hk3 hne
                  injection hk3 with hkk
                  rw [← hkk] at hne
                  exact absurd hkRL hne

/-- Claim C8: with `max_attempts = 8` and a `random.uniform` oracle honouring
its contract, `_run_with_backoff` invokes the tool at most 8 times; every
retried (non-final) attempt had outcome `RATE_LIMIT`; exactly one sleep is
performed per retry, and the `i`-th sleep (0-based) equals
`min(600, 5 * 2^i)` seconds plus a jitter of at most one tenth of that
delay; an error classified `NOT_FOUND`, `ACCESS_DENIED` or `FAILED` (any
non-`RATE_LIMIT` kind) on the first attempt is re-raised immediately with no
retry and no sleep. -/
theorem run_with_backoff_spec (env : ToolEnv)
    (hU : ∀ b : ℚ, 0 ≤ b → 0 ≤ env.uniform 0 b ∧ env.uniform 0 b ≤ b) :
    (run_with_backoff env 8).runs ≤ 8
  ∧ (∀ i, 1 ≤ i → i < (run_with_backoff env 8).runs →
       env.outcome i = some "RATE_LIMIT")
  ∧ (run_with_backoff env 8).sleeps.length = (run_with_backoff env 8).runs - 1
  ∧ (∀ i (h : i < (run_with_backoff env 8).sleeps.length),
       ∃ j : ℚ, 0 ≤ j ∧ 10 * j ≤ min 600 (5 * 2 ^ i) ∧
         (run_with_backoff env 8).sleeps.get ⟨i, h⟩ = min 600 (5 * 2 ^ i) + j)
  ∧ (∀ k, env.outcome 1 = some k → k ≠ "RATE_LIMIT" →
       run_with_backoff env 8 = .err k 1 []) := by
  have h := backoff_from_spec env hU 8 7 1 (le_refl 1) (by omega)
  unfold BackoffSpec at h
  obtain ⟨⟨h1, h2⟩, hlen, hretry, hsleep, hlast⟩ := h
  unfold run_with_backoff
  refine ⟨by simpa using h2, hretry, hlen, ?_, hlast⟩
  intro i hle
  obtain ⟨j, hj0, hj1, hj2⟩ := hsleep i hle
  have hexp : 1 + i - 1 = i := by omega
  rw [hexp] at hj1 hj2
  exact ⟨j, hj0, hj1, hj2⟩

/-- Witness for C8: a first-attempt `NOT_FOUND` is raised immediately --
one invocation, no sleeps. -/
theorem run_with_backoff_spec_witness :
    run_with_backoff toolEnvNotFound 8 = .err "NOT_FOUND" 1 [] :=
  (run_with_backoff_spec toolEnvNotFound
    (fun b hb => ⟨le_refl 0, hb⟩)).2.2.2.2 "NOT_FOUND" rfl (by decide)
